import Mathlib

/-!
Shallow embedding of the SPMS backend, an Express/Mongoose service for
tracking student projects.  The embedding covers the User and Project data
model (src/models/User.js, the Project schema), the auth routes
(src/routes/authRoutes.js) and the student/project/invoice routes together
with the multer upload filter (the student routes file).  Handlers become
pure functions from a database state and a request to a new state and an
HTTP-level result.
-/

/-- JavaScript dynamic values, as far as the handlers inspect them:
integer numbers (amounts), the NaN produced by a failed numeric coercion,
strings, null and undefined. -/
inductive JsValue where
  | num (n : Int)
  | nan
  | str (s : String)
  | null
  | undef
  deriving Repr, DecidableEq

/-- JavaScript whitespace characters stripped by Number before parsing. -/
def isJsSpace (c : Char) : Bool :=
  c == ' ' || c == '\t' || c == '\n' || c == '\r'

/-- The decimal value of a digit run, none when a non-digit appears. -/
def digitsVal? (l : List Char) : Option Nat :=
  l.foldl
    (fun acc c =>
      match acc with
      | some n => if c.isDigit then some (n * 10 + (c.toNat - 48)) else none
      | none => none)
    (some 0)

/-- Integer parsing of a trimmed non-empty character run, with an optional
sign; none represents NaN. -/
def parseIntOfChars (l : List Char) : Option Int :=
  match l with
  | [] => none
  | '-' :: rest =>
      if rest.isEmpty then none
      else (digitsVal? rest).map (fun n => -(n : Int))
  | '+' :: rest =>
      if rest.isEmpty then none
      else (digitsVal? rest).map (fun n => (n : Int))
  | _ => (digitsVal? l).map (fun n => (n : Int))

/-- The JavaScript coercion Number(x) on the values above: null coerces to 0,
undefined to NaN, a string is whitespace-trimmed and parses as an integer
(blank strings give 0, unparsable strings give NaN — integer-valued amounts
suffice for this code), numbers pass through. -/
def jsNumber : JsValue → JsValue
  | .num n => .num n
  | .nan => .nan
  | .str s =>
      let t := ((s.data.dropWhile isJsSpace).reverse.dropWhile isJsSpace).reverse
      if t.isEmpty then .num 0
      else
        match parseIntOfChars t with
        | some n => .num n
        | none => .nan
  | .null => .num 0
  | .undef => .nan

/-- ASCII lower-casing of one character, as toLowerCase acts on the
extension strings this code compares. -/
def charLower (c : Char) : Char :=
  if 'A' ≤ c && c ≤ 'Z' then Char.ofNat (c.toNat + 32) else c

/-- String.prototype.toLowerCase restricted to ASCII file extensions. -/
def strLower (s : String) : String :=
  String.mk (s.data.map charLower)

/-- The expression Number(x) || 0 from the revenue reduction: NaN (and 0
itself) collapse to 0, every other number passes through. -/
def numOrZero (v : JsValue) : Int :=
  match jsNumber v with
  | .num n => n
  | _ => 0

/-- field = req.body.f || field : a truthy (present, non-empty) request string
replaces the stored value, a falsy one (absent or empty) keeps it. -/
def orKeep (req : Option String) (current : String) : String :=
  match req with
  | some s => if s = "" then current else s
  | none => current

/-- Same truthiness pattern for an optional object-id reference
(assignedDeveloper): a present id is truthy and replaces, absence keeps. -/
def orKeepRef (req : Option Nat) (current : Option Nat) : Option Nat :=
  match req with
  | some i => some i
  | none => current

/-- A User document (src/models/User.js).  The password field stores the
bcrypt hash produced by the pre-save hook; path fields default to the empty
string; assignedDeveloper is an optional reference to a developer. -/
structure User where
  id : Nat
  name : String
  username : String
  password : String
  role : String
  documentPath : String
  pdfPath : String
  zipPath : String
  videoPath : String
  assignedDeveloper : Option Nat
  deriving Repr, DecidableEq

/-- The projection produced by .select(-password): every User field except
the stored password hash.  (populate of assignedDeveloper is kept as the
referenced id.) -/
structure SafeUser where
  id : Nat
  name : String
  username : String
  role : String
  documentPath : String
  pdfPath : String
  zipPath : String
  videoPath : String
  assignedDeveloper : Option Nat
  deriving Repr, DecidableEq

def User.toSafe (u : User) : SafeUser :=
  { id := u.id, name := u.name, username := u.username, role := u.role,
    documentPath := u.documentPath, pdfPath := u.pdfPath,
    zipPath := u.zipPath, videoPath := u.videoPath,
    assignedDeveloper := u.assignedDeveloper }

/-- The embedded invoiceDetails subdocument of a Project.  paymentStatus has
the mongoose default Pending; isSent has the default false but is always set
explicitly by the two invoice handlers. -/
structure InvoiceDetails where
  invoiceNo : Option String
  date : Option String
  companyName : Option String
  companyAddress : Option String
  title : Option String
  description : Option String
  frontend : Option String
  backend : Option String
  database : Option String
  amount : Option String
  paymentStatus : String
  paymentMethod : Option String
  signatory : Option String
  isSent : Bool
  deriving Repr, DecidableEq

/-- A request body for the two invoice endpoints: the invoice fields the
client may supply, including a client-supplied isSent, which both handlers
override. -/
structure InvoiceBody where
  invoiceNo : Option String
  date : Option String
  companyName : Option String
  companyAddress : Option String
  title : Option String
  description : Option String
  frontend : Option String
  backend : Option String
  database : Option String
  amount : Option String
  paymentStatus : Option String
  paymentMethod : Option String
  signatory : Option String
  isSent : Option Bool
  deriving Repr, DecidableEq

/-- The spread assignment project.invoiceDetails = ... req.body with
isSent := sent : every invoice field is copied from the request body
(mongoose fills the paymentStatus default), and isSent is the override
supplied by the handler, never the body's own isSent. -/
def invoiceFromBody (b : InvoiceBody) (sent : Bool) : InvoiceDetails :=
  { invoiceNo := b.invoiceNo, date := b.date, companyName := b.companyName,
    companyAddress := b.companyAddress, title := b.title,
    description := b.description, frontend := b.frontend,
    backend := b.backend, database := b.database, amount := b.amount,
    paymentStatus := b.paymentStatus.getD "Pending",
    paymentMethod := b.paymentMethod, signatory := b.signatory,
    isSent := sent }

/-- A Project document (Project schema): title, description, a required
student reference, technology labels, an amount (held as a dynamic value so
that the handlers' Number coercions are visible), a status string and the
optional embedded invoice. -/
structure Project where
  id : Nat
  title : String
  description : String
  student : Nat
  submissionDate : String
  frontend : String
  backend : String
  database : String
  amount : JsValue
  status : String
  invoiceDetails : Option InvoiceDetails
  deriving Repr, DecidableEq

/-- project.invoiceDetails?.isSent || false : the stored isSent flag, false
when no invoice has ever been saved. -/
def prevIsSent (p : Project) : Bool :=
  match p.invoiceDetails with
  | some inv => inv.isSent
  | none => false

/-- The backing document store: User and Project collections plus fresh-id
counters standing in for ObjectId generation. -/
structure DB where
  nextUserId : Nat
  nextProjectId : Nat
  users : List User
  projects : List Project
  deriving Repr, DecidableEq

def findUserById (db : DB) (i : Nat) : Option User :=
  db.users.find? (fun u => u.id == i)

def findUserByUsername (db : DB) (uname : String) : Option User :=
  db.users.find? (fun u => u.username == uname)

def findProjectById (db : DB) (i : Nat) : Option Project :=
  db.projects.find? (fun p => p.id == i)

/-- user.save() on an existing document: replace the stored document with
the mutated one, leaving every other document unchanged. -/
def saveUser (db : DB) (u : User) : DB :=
  { db with users := db.users.map (fun v => if v.id == u.id then u else v) }

/-- project.save() on an existing document. -/
def saveProject (db : DB) (p : Project) : DB :=
  { db with projects := db.projects.map (fun q => if q.id == p.id then p else q) }

/-- The bcrypt pre-save hook of UserSchema is an external one-way primitive;
modelled as an opaque injective stand-in. -/
def hashPassword (pw : String) : String :=
  "bcrypt$" ++ pw

/-- jwt.sign binding the user id with a 30-day expiry; the token contents are
opaque to the handlers, modelled as a stand-in keyed by the id. -/
def generateToken (i : Nat) : String :=
  "jwt$" ++ toString i

/-- The HTTP-level outcome of a handler: the JSON body on success, or the
structured error responses of the error taxonomy.  uncaughtError marks an
exception thrown outside the handler's try/catch (no structured response). -/
inductive HttpResult (α : Type) where
  | ok (body : α)
  | created (body : α)
  | badRequest (msg : String)
  | forbidden
  | notFound (msg : String)
  | unsupportedFileType (msg : String)
  | serverError (msg : String)
  | uncaughtError
  deriving Repr, DecidableEq

/-- Modelled from the spec: src/middleware/authMiddleware.js is not in the
repository snapshot.  Per the spec, the authorizeDeveloper gate fails with
Forbidden unless the authenticated identity's role is developer, and performs
no ownership check; the protect middleware resolves the bearer token to the
caller User, which the handlers below receive already resolved. -/
def authorizeDeveloper (caller : User) : Bool :=
  caller.role == "developer"

/-- Request body of POST /api/auth/register.  The password field is optional
to reflect that a client may omit it entirely; name and username are taken as
present (their absence only triggers mongoose required-field validation,
outside the scope of the claims). -/
structure RegisterBody where
  name : String
  username : String
  password : Option String
  deriving Repr, DecidableEq

/-- Response body of register and login: the public profile plus a token. -/
structure AuthResponse where
  userId : Nat
  name : String
  username : String
  role : String
  token : String
  deriving Repr, DecidableEq

/-- POST /api/auth/register.  The handler evaluates password.length before
any guard and outside its try/catch, so a body with no password throws an
uncaught TypeError; otherwise a short password gives the structured 400,
a duplicate username gives 400, and success creates a developer (no
assignedDeveloper) and returns 201 with a token. -/
def register (db : DB) (body : RegisterBody) : DB × HttpResult AuthResponse :=
  match body.password with
  | none => (db, .uncaughtError)
  | some pw =>
    if pw.length < 8 then
      (db, .badRequest "Password must be at least 8 characters long")
    else
      match findUserByUsername db body.username with
      | some _ => (db, .badRequest "User already exists")
      | none =>
        let user : User :=
          { id := db.nextUserId, name := body.name, username := body.username,
            password := hashPassword pw, role := "developer",
            documentPath := "", pdfPath := "", zipPath := "", videoPath := "",
            assignedDeveloper := none }
        ({ db with nextUserId := db.nextUserId + 1, users := db.users ++ [user] },
         .created { userId := user.id, name := user.name,
                    username := user.username, role := user.role,
                    token := generateToken user.id })

/-- GET /api/auth/developers: all users with role developer, password
excluded by .select(-password). -/
def getDevelopers (db : DB) : HttpResult (List SafeUser) :=
  .ok ((db.users.filter (fun u => u.role == "developer")).map User.toSafe)

/-- GET /api/auth/me: the caller's own profile, password excluded. -/
def getMe (db : DB) (caller : User) : HttpResult SafeUser :=
  match findUserById db caller.id with
  | some u => .ok u.toSafe
  | none => .notFound "User not found"

/-- Request body of PUT /api/students/:id: every field optional; absent
means the key was not in the JSON body. -/
structure UserUpdateBody where
  name : Option String
  username : Option String
  password : Option String
  assignedDeveloper : Option Nat
  pdfPath : Option String
  zipPath : Option String
  videoPath : Option String
  documentPath : Option String
  deriving Repr, DecidableEq

/-- Response body of PUT /api/students/:id: only id, name, username, role. -/
structure UserUpdateResponse where
  userId : Nat
  name : String
  username : String
  role : String
  deriving Repr, DecidableEq

/-- The field-by-field mutation block of the PUT /api/students/:id handler:
name/username are replaced only when truthy, a truthy password is re-hashed
by the pre-save hook, assignedDeveloper is replaced only when truthy, and the
four path fields are replaced whenever the key is present. -/
def applyUserUpdate (user : User) (body : UserUpdateBody) : User :=
  let user := { user with
    name := orKeep body.name user.name,
    username := orKeep body.username user.username }
  let user :=
    match body.password with
    | some pw => if pw = "" then user else { user with password := hashPassword pw }
    | none => user
  let user := { user with
    assignedDeveloper := orKeepRef body.assignedDeveloper user.assignedDeveloper }
  let user :=
    match body.pdfPath with
    | some s => { user with pdfPath := s }
    | none => user
  let user :=
    match body.zipPath with
    | some s => { user with zipPath := s }
    | none => user
  let user :=
    match body.videoPath with
    | some s => { user with videoPath := s }
    | none => user
  match body.documentPath with
  | some s => { user with documentPath := s }
  | none => user

/-- PUT /api/students/:id (behind protect and authorizeDeveloper): looks the
target up by id with no role or ownership check, applies the mutation block
and responds with the id/name/username/role projection. -/
def updateStudent (db : DB) (caller : User) (i : Nat) (body : UserUpdateBody) :
    DB × HttpResult UserUpdateResponse :=
  if authorizeDeveloper caller then
    match findUserById db i with
    | none => (db, .notFound "User not found")
    | some user =>
      let user := applyUserUpdate user body
      (saveUser db user,
       .ok { userId := user.id, name := user.name,
             username := user.username, role := user.role })
  else (db, .forbidden)

/-- Request body of POST /api/students. -/
structure CreateStudentBody where
  name : String
  username : String
  password : String
  deriving Repr, DecidableEq

/-- POST /api/students (behind protect and authorizeDeveloper): rejects a
duplicate username with 400, otherwise creates a student assigned to the
calling developer and responds 201 with the full created document — the
stored password hash included, since the handler serialises the whole
document. -/
def createStudent (db : DB) (caller : User) (body : CreateStudentBody) :
    DB × HttpResult User :=
  if authorizeDeveloper caller then
    match findUserByUsername db body.username with
    | some _ => (db, .badRequest "Student already exists")
    | none =>
      let student : User :=
        { id := db.nextUserId, name := body.name, username := body.username,
          password := hashPassword body.password, role := "student",
          documentPath := "", pdfPath := "", zipPath := "", videoPath := "",
          assignedDeveloper := some caller.id }
      ({ db with nextUserId := db.nextUserId + 1, users := db.users ++ [student] },
       .created student)
  else (db, .forbidden)

/-- GET /api/students (behind protect and authorizeDeveloper): the query is
scoped at lookup time to role student and assignedDeveloper equal to the
caller's id; password excluded. -/
def listStudents (db : DB) (caller : User) : HttpResult (List SafeUser) :=
  if authorizeDeveloper caller then
    .ok ((db.users.filter
            (fun u => u.role == "student" && u.assignedDeveloper == some caller.id)).map
          User.toSafe)
  else .forbidden

/-- Response body of GET /api/students/stats/global. -/
structure GlobalStats where
  totalStudents : Nat
  totalProjects : Nat
  totalRevenue : Int
  deriving Repr, DecidableEq

/-- GET /api/students/stats/global: fetch the caller's students, then the
projects of those students, and reduce revenue with
acc + (Number(curr.amount) || 0) starting from 0. -/
def globalStats (db : DB) (caller : User) : HttpResult GlobalStats :=
  if authorizeDeveloper caller then
    let myStudents := db.users.filter
      (fun u => u.role == "student" && u.assignedDeveloper == some caller.id)
    let studentIds := myStudents.map (fun s => s.id)
    let projects := db.projects.filter (fun p => studentIds.contains p.student)
    .ok { totalStudents := studentIds.length,
          totalProjects := projects.length,
          totalRevenue := projects.foldl (fun acc curr => acc + numOrZero curr.amount) 0 }
  else .forbidden

/-- Response body of GET /api/students/:id: the student (password excluded)
together with their projects. -/
structure StudentDetail where
  student : SafeUser
  projects : List Project
  deriving Repr, DecidableEq

/-- GET /api/students/:id (behind protect and authorizeDeveloper): fetches
any user by id — no ownership check — and that user's projects. -/
def getStudent (db : DB) (caller : User) (i : Nat) : HttpResult StudentDetail :=
  if authorizeDeveloper caller then
    match findUserById db i with
    | none => .notFound "Student not found"
    | some student =>
      .ok { student := student.toSafe,
            projects := db.projects.filter (fun p => p.student == student.id) }
  else .forbidden

/-- Request body of PUT /api/students/project/:id: the seven text-like fields
plus amount, which the handler treats by presence rather than truthiness. -/
structure ProjectUpdateBody where
  title : Option String
  description : Option String
  status : Option String
  frontend : Option String
  backend : Option String
  database : Option String
  amount : Option JsValue
  submissionDate : Option String
  deriving Repr, DecidableEq

/-- PUT /api/students/project/:id (behind protect and authorizeDeveloper):
each text field is replaced only when truthy; amount is replaced by
Number(req.body.amount) whenever the key is present (undefined is the only
value that keeps the stored amount); 404 when the project does not exist. -/
def updateProject (db : DB) (caller : User) (i : Nat) (body : ProjectUpdateBody) :
    DB × HttpResult Project :=
  if authorizeDeveloper caller then
    match findProjectById db i with
    | none => (db, .notFound "Project not found")
    | some project =>
      let updated : Project := { project with
        title := orKeep body.title project.title,
        description := orKeep body.description project.description,
        status := orKeep body.status project.status,
        frontend := orKeep body.frontend project.frontend,
        backend := orKeep body.backend project.backend,
        database := orKeep body.database project.database,
        amount :=
          match body.amount with
          | some v => jsNumber v
          | none => project.amount,
        submissionDate := orKeep body.submissionDate project.submissionDate }
      (saveProject db updated, .ok updated)
  else (db, .forbidden)

/-- PUT /api/students/project/:id/save-bill: replaces invoiceDetails with the
request body wholesale but forces isSent to the previously stored value
(false when no invoice existed), ignoring any body-supplied isSent. -/
def saveDraft (db : DB) (caller : User) (i : Nat) (body : InvoiceBody) :
    DB × HttpResult Project :=
  if authorizeDeveloper caller then
    match findProjectById db i with
    | none => (db, .notFound "Project not found")
    | some project =>
      let updated : Project :=
        { project with invoiceDetails := some (invoiceFromBody body (prevIsSent project)) }
      (saveProject db updated, .ok updated)
  else (db, .forbidden)

/-- PUT /api/students/project/:id/send-bill: same wholesale replacement, but
forces isSent to true unconditionally. -/
def sendInvoice (db : DB) (caller : User) (i : Nat) (body : InvoiceBody) :
    DB × HttpResult Project :=
  if authorizeDeveloper caller then
    match findProjectById db i with
    | none => (db, .notFound "Project not found")
    | some project =>
      let updated : Project :=
        { project with invoiceDetails := some (invoiceFromBody body true) }
      (saveProject db updated, .ok updated)
  else (db, .forbidden)

/-- Whether pat occurs as a contiguous substring of s (the behaviour of a
bare regular-expression alternative tested against a string). -/
def containsSub (pat s : String) : Bool :=
  (List.range (s.length + 1)).any (fun i => pat.data.isPrefixOf (s.data.drop i))

/-- path.extname: the suffix of the name from its last dot, empty when there
is no dot or the only dot leads the name. -/
def extnameOf (s : String) : String :=
  let cs := s.data
  let tail := cs.reverse.takeWhile (fun c => c != '.')
  if tail.length = cs.length then ""
  else if tail.length + 1 = cs.length then ""
  else String.mk ('.' :: tail.reverse)

/-- filetypes.test(x) for the regular expression alternating over
zip, pdf, mp4, mov, avi, mkv: true when x contains any of the six as a
substring. -/
def filetypesTest (s : String) : Bool :=
  ["zip", "pdf", "mp4", "mov", "avi", "mkv"].any (fun pat => containsSub pat s)

/-- The multer fileFilter: it computes the filetypes test on both the
lowercased extension and the mime type, but the accept/reject decision reads
only the extension test — the mime result is bound and never used. -/
def fileFilter (originalname mimetype : String) : Bool :=
  let extnameMatch := filetypesTest (strLower (extnameOf originalname))
  let _mimetypeMatch := filetypesTest mimetype
  extnameMatch

/-- The disk-storage filename: uploads directory, receipt timestamp, dash,
the original name. -/
def storedPath (ts : Nat) (originalname : String) : String :=
  "uploads/" ++ toString ts ++ "-" ++ originalname

/-- Response body of POST /api/students/:id/upload. -/
structure UploadResponse where
  message : String
  path : String
  deriving Repr, DecidableEq

/-- POST /api/students/:id/upload (behind protect, authorizeDeveloper and the
multer filter): a rejected file never reaches the handler; an accepted one is
routed by exact lowercased extension to pdfPath, zipPath or videoPath, with
every other accepted extension falling back to documentPath. -/
def uploadDocument (db : DB) (caller : User) (i : Nat)
    (originalname mimetype : String) (ts : Nat) : DB × HttpResult UploadResponse :=
  if authorizeDeveloper caller then
    if fileFilter originalname mimetype then
      match findUserById db i with
      | none => (db, .notFound "User not found")
      | some user =>
        let p := storedPath ts originalname
        let ext := strLower (extnameOf originalname)
        let user :=
          if ext == ".pdf" then { user with pdfPath := p }
          else if ext == ".zip" then { user with zipPath := p }
          else if [".mp4", ".mov", ".avi", ".mkv"].contains ext then
            { user with videoPath := p }
          else { user with documentPath := p }
        (saveUser db user, .ok { message := "File uploaded successfully", path := p })
    else (db, .unsupportedFileType "Error: Only ZIP, PDF, and Video files are allowed!")
  else (db, .forbidden)

/-- The operations of the identity-administration surface that create or
mutate users: developer registration, student creation and the per-id user
update.  Mutating operations resolve their caller from the store (the protect
middleware rejects callers that no longer exist, leaving the store
unchanged). -/
inductive AdminOp where
  | registerDev (body : RegisterBody)
  | newStudent (callerId : Nat) (body : CreateStudentBody)
  | putStudent (callerId : Nat) (targetId : Nat) (body : UserUpdateBody)
  deriving Repr, DecidableEq

/-- The state transition of one administration operation. -/
def applyAdminOp (db : DB) (op : AdminOp) : DB :=
  match op with
  | .registerDev body => (register db body).1
  | .newStudent c body =>
      match findUserById db c with
      | some caller => (createStudent db caller body).1
      | none => db
  | .putStudent c t body =>
      match findUserById db c with
      | some caller => (updateStudent db caller t body).1
      | none => db

/-- The invariant claimed of the data model: no stored developer carries an
assignedDeveloper reference. -/
def DevInvariant (db : DB) : Prop :=
  ∀ u ∈ db.users, u.role = "developer" → u.assignedDeveloper = none

/-- The two invoice-workflow operations on one project. -/
inductive InvoiceOp where
  | draft (body : InvoiceBody)
  | send (body : InvoiceBody)
  deriving Repr, DecidableEq

/-- The state transition of one invoice operation issued by a caller against
project i. -/
def applyInvoiceOp (caller : User) (i : Nat) (db : DB) (op : InvoiceOp) : DB :=
  match op with
  | .draft body => (saveDraft db caller i body).1
  | .send body => (sendInvoice db caller i body).1

/-- The stored isSent flag of project i, false when the project or its
invoice does not exist. -/
def invoiceIsSent (db : DB) (i : Nat) : Bool :=
  match findProjectById db i with
  | some p => prevIsSent p
  | none => false

/-! ### Helper lemmas -/

theorem authorizeDeveloper_of_role {caller : User} (h : caller.role = "developer") :
    authorizeDeveloper caller = true := by
  simp [authorizeDeveloper, h]

/-- find? after a save-style replacement map: if the lookup by key i found p
and the replacement upd carries p's key, the lookup now finds upd. -/
theorem find?_map_replace {α : Type} (key : α → Nat) (upd : α) :
    ∀ (l : List α) (i : Nat) (p : α),
      l.find? (fun q => key q == i) = some p → key upd = key p →
      (l.map (fun q => if key q == key upd then upd else q)).find?
          (fun q => key q == i) = some upd := by
  intro l
  induction l with
  | nil => intro i p h _; simp at h
  | cons a t ih =>
    intro i p h hid
    rw [List.map_cons]
    by_cases ha : key a = i
    · have hab : ((fun q => key q == i) a) = true := by simpa using ha
      rw [List.find?_cons_of_pos (p := fun q => key q == i) t hab] at h
      have hpa : a = p := by injection h
      have h1 : (key a == key upd) = true := by simp [hid, ← hpa]
      rw [if_pos h1]
      exact List.find?_cons_of_pos (p := fun q => key q == i) _
        (by simp [hid, ← hpa, ha])
    · have hab : ¬ ((fun q => key q == i) a) = true := by simpa using ha
      rw [List.find?_cons_of_neg (p := fun q => key q == i) t hab] at h
      have hpi : (key p == i) = true := by
        simpa using List.find?_some h
      have h1 : (key a == key upd) = false := by
        have hp2 : key p = i := by simpa using hpi
        simp [hid, hp2, ha]
      rw [if_neg (by simp [h1])]
      rw [List.find?_cons_of_neg (p := fun q => key q == i) _ hab]
      exact ih i p h hid

theorem findProjectById_saveProject {db : DB} {i : Nat} {p : Project}
    (upd : Project) (h : findProjectById db i = some p) (hid : upd.id = p.id) :
    findProjectById (saveProject db upd) i = some upd := by
  have h2 : db.projects.find? (fun q => q.id == i) = some p := h
  have h3 := find?_map_replace (fun q : Project => q.id) upd db.projects i p h2 hid
  simpa [findProjectById, saveProject] using h3

theorem findUserById_saveUser {db : DB} {i : Nat} {u : User}
    (upd : User) (h : findUserById db i = some u) (hid : upd.id = u.id) :
    findUserById (saveUser db upd) i = some upd := by
  have h2 : db.users.find? (fun v => v.id == i) = some u := h
  have h3 := find?_map_replace (fun v : User => v.id) upd db.users i u h2 hid
  simpa [findUserById, saveUser] using h3

theorem mem_saveUser_users {db : DB} {u v : User}
    (h : v ∈ (saveUser db u).users) : v = u ∨ v ∈ db.users := by
  simp only [saveUser, List.mem_map] at h
  obtain ⟨w, hw, hv⟩ := h
  by_cases hc : (w.id == u.id) = true
  · left; rw [← hv, if_pos hc]
  · right; rw [← hv, if_neg hc]; exact hw

theorem orKeep_falsy {r : Option String} {c : String}
    (h : r = none ∨ r = some "") : orKeep r c = c := by
  rcases h with h | h <;> subst h <;> simp [orKeep]

theorem foldl_add_numOrZero (l : List Project) (acc : Int) :
    l.foldl (fun a curr => a + numOrZero curr.amount) acc
      = acc + ((l.map (fun p => numOrZero p.amount)).sum) := by
  induction l generalizing acc with
  | nil => simp
  | cons p t ih => simp [List.foldl_cons, ih, List.sum_cons]; ring

theorem applyUserUpdate_role (u : User) (b : UserUpdateBody) :
    (applyUserUpdate u b).role = u.role := by
  unfold applyUserUpdate
  cases b.password <;> cases b.pdfPath <;> cases b.zipPath <;>
    cases b.videoPath <;> cases b.documentPath <;> simp <;> split <;> simp

theorem applyUserUpdate_assignedDeveloper (u : User) (b : UserUpdateBody) :
    (applyUserUpdate u b).assignedDeveloper
      = orKeepRef b.assignedDeveloper u.assignedDeveloper := by
  unfold applyUserUpdate
  cases b.password <;> cases b.pdfPath <;> cases b.zipPath <;>
    cases b.videoPath <;> cases b.documentPath <;> simp <;> split <;> simp

/-! ### Sample fixtures used to instantiate the theorems -/

def sampleDev : User :=
  { id := 0, name := "Dana", username := "dana",
    password := hashPassword "hunter22", role := "developer",
    documentPath := "", pdfPath := "", zipPath := "", videoPath := "",
    assignedDeveloper := none }

def sampleOtherDev : User :=
  { id := 1, name := "Evan", username := "evan",
    password := hashPassword "hunter23", role := "developer",
    documentPath := "", pdfPath := "", zipPath := "", videoPath := "",
    assignedDeveloper := none }

def sampleStudent : User :=
  { id := 2, name := "Sam", username := "sam",
    password := hashPassword "hunter24", role := "student",
    documentPath := "", pdfPath := "", zipPath := "", videoPath := "",
    assignedDeveloper := some 1 }

def sampleProject : Project :=
  { id := 0, title := "Site", description := "A site", student := 2,
    submissionDate := "2025-01-01", frontend := "", backend := "",
    database := "", amount := JsValue.num 100, status := "Pending",
    invoiceDetails := none }

def sampleDB : DB :=
  { nextUserId := 3, nextProjectId := 1,
    users := [sampleDev, sampleOtherDev, sampleStudent],
    projects := [sampleProject] }

def sampleInvoiceBody : InvoiceBody :=
  { invoiceNo := some "INV-1", date := none, companyName := none,
    companyAddress := none, title := none, description := none,
    frontend := none, backend := none, database := none, amount := none,
    paymentStatus := none, paymentMethod := none, signatory := none,
    isSent := some false }

/-! ### Claim theorems -/

/-- Claim C10: the register handler reads password.length before any guard
and outside its try/catch, so a body without a password throws an uncaught
error rather than returning the structured ValidationError; the minimum
length check (and every structured response) is reached only when a password
is present. -/
theorem register_reads_password_before_guards (db : DB) (body : RegisterBody) :
    (body.password = none → register db body = (db, HttpResult.uncaughtError)) ∧
    (∀ pw, body.password = some pw → pw.length < 8 →
       register db body
         = (db, HttpResult.badRequest "Password must be at least 8 characters long")) ∧
    (∀ pw, body.password = some pw → (register db body).2 ≠ HttpResult.uncaughtError) := by
  refine ⟨?_, ?_, ?_⟩
  · intro h
    simp [register, h]
  · intro pw hpw hlen
    simp [register, hpw, hlen]
  · intro pw hpw
    simp only [register, hpw]
    by_cases hlen : pw.length < 8
    · simp [hlen]
    · simp only [if_neg hlen]
      cases h : findUserByUsername db body.username <;> simp

/-- Witness for C10 at a concrete input: a request body that omits the
password makes the register handler throw instead of answering. -/
theorem register_reads_password_before_guards_witness :
    register sampleDB { name := "Zoe", username := "zoe", password := none }
      = (sampleDB, HttpResult.uncaughtError) :=
  (register_reads_password_before_guards sampleDB
      { name := "Zoe", username := "zoe", password := none }).1 rfl

/-- Claim C6 (failing input): POST /api/students serialises the entire
created document, so its 201 response carries the stored password hash —
the claim that the credential hash is never transmitted fails here, while
the other listed endpoints do strip it. -/
theorem createStudent_response_contains_password_hash :
    ∃ s : User,
      (createStudent sampleDB sampleDev
          { name := "Carol", username := "carol", password := "pw12345" }).2
        = HttpResult.created s ∧
      s.password = hashPassword "pw12345" ∧ s.password ≠ "" := by
  refine ⟨_, rfl, rfl, by decide⟩

/-- After a successful send, the stored flag of the project is true. -/
theorem invoiceIsSent_sendInvoice (db : DB) (caller : User) (i : Nat)
    (body : InvoiceBody) (p : Project)
    (hauth : authorizeDeveloper caller = true)
    (hf : findProjectById db i = some p) :
    invoiceIsSent (sendInvoice db caller i body).1 i = true := by
  have hsave := findProjectById_saveProject
    ({ p with invoiceDetails := some (invoiceFromBody body true) }) hf rfl
  have h1 : (sendInvoice db caller i body).1
      = saveProject db { p with invoiceDetails := some (invoiceFromBody body true) } := by
    rw [sendInvoice, if_pos hauth, hf]
  rw [h1]
  unfold invoiceIsSent
  rw [hsave]
  rfl

/-- After a successful draft save, the stored flag of the project is the
previously stored flag. -/
theorem invoiceIsSent_saveDraft (db : DB) (caller : User) (i : Nat)
    (body : InvoiceBody) (p : Project)
    (hauth : authorizeDeveloper caller = true)
    (hf : findProjectById db i = some p) :
    invoiceIsSent (saveDraft db caller i body).1 i = prevIsSent p := by
  have hsave := findProjectById_saveProject
    ({ p with invoiceDetails := some (invoiceFromBody body (prevIsSent p)) }) hf rfl
  have h1 : (saveDraft db caller i body).1
      = saveProject db
          { p with invoiceDetails := some (invoiceFromBody body (prevIsSent p)) } := by
    rw [saveDraft, if_pos hauth, hf]
  rw [h1]
  unfold invoiceIsSent
  rw [hsave]
  rfl

/-- One invoice operation cannot lower a true isSent flag: drafts carry the
previous flag forward and sends force it to true, whatever the caller or the
body. -/
theorem invoiceIsSent_step (caller : User) (i : Nat) (db : DB) (op : InvoiceOp)
    (h : invoiceIsSent db i = true) :
    invoiceIsSent (applyInvoiceOp caller i db op) i = true := by
  have hfind : ∃ p, findProjectById db i = some p ∧ prevIsSent p = true := by
    unfold invoiceIsSent at h
    cases hf : findProjectById db i with
    | none => rw [hf] at h; simp at h
    | some p => rw [hf] at h; exact ⟨p, rfl, h⟩
  obtain ⟨p, hf, hsent⟩ := hfind
  cases op with
  | draft body =>
    by_cases hauth : authorizeDeveloper caller = true
    · show invoiceIsSent (saveDraft db caller i body).1 i = true
      rw [invoiceIsSent_saveDraft db caller i body p hauth hf]
      exact hsent
    · have hfalse : authorizeDeveloper caller = false := by simpa using hauth
      have h1 : (saveDraft db caller i body).1 = db := by
        simp [saveDraft, hfalse]
      show invoiceIsSent (saveDraft db caller i body).1 i = true
      rw [h1]; exact h
  | send body =>
    by_cases hauth : authorizeDeveloper caller = true
    · exact invoiceIsSent_sendInvoice db caller i body p hauth hf
    · have hfalse : authorizeDeveloper caller = false := by simpa using hauth
      have h1 : (sendInvoice db caller i body).1 = db := by
        simp [sendInvoice, hfalse]
      show invoiceIsSent (sendInvoice db caller i body).1 i = true
      rw [h1]; exact h

/-- Claim C1: invoiceDetails.isSent is monotonic across the two invoice
operations — saveDraft replaces invoiceDetails with the request body but
forces isSent to the previous value (false when no invoice existed),
ignoring any body-supplied isSent; sendInvoice forces isSent to true
whatever the body supplies; and once the stored flag is true, no sequence of
saveDraft/sendInvoice calls makes it false again. -/
theorem invoice_isSent_monotonic (db : DB) (caller : User) (i : Nat)
    (b : InvoiceBody) (p : Project) (hrole : caller.role = "developer") :
    (findProjectById db i = some p →
       saveDraft db caller i b
         = (saveProject db
              { p with invoiceDetails := some (invoiceFromBody b (prevIsSent p)) },
            HttpResult.ok
              { p with invoiceDetails := some (invoiceFromBody b (prevIsSent p)) })) ∧
    (∀ v sent, invoiceFromBody { b with isSent := v } sent = invoiceFromBody b sent) ∧
    (∀ sent, (invoiceFromBody b sent).isSent = sent) ∧
    (findProjectById db i = some p →
       invoiceIsSent (sendInvoice db caller i b).1 i = true) ∧
    (∀ ops : List InvoiceOp, invoiceIsSent db i = true →
       invoiceIsSent (ops.foldl (applyInvoiceOp caller i) db) i = true) := by
  have hauth : authorizeDeveloper caller = true := authorizeDeveloper_of_role hrole
  refine ⟨?_, ?_, ?_, ?_, ?_⟩
  · intro hfind
    simp [saveDraft, hauth, hfind]
  · intro v sent; rfl
  · intro sent; rfl
  · intro hfind
    exact invoiceIsSent_sendInvoice db caller i b p hauth hfind
  · intro ops
    induction ops generalizing db with
    | nil => intro h; simpa using h
    | cons op rest ih =>
      intro h
      rw [List.foldl_cons]
      exact ih _ (invoiceIsSent_step caller i db op h)

/-- Witness for C1 at a concrete input: sending the invoice of the sample
project stores isSent = true. -/
theorem invoice_isSent_monotonic_witness :
    invoiceIsSent (sendInvoice sampleDB sampleDev 0 sampleInvoiceBody).1 0 = true :=
  (invoice_isSent_monotonic sampleDB sampleDev 0 sampleInvoiceBody sampleProject
      rfl).2.2.2.1 rfl

/-- Claim C2 (spec-modelled authorizeDeveloper): the per-id endpoints
authorize by role only, never by ownership — for a caller whose role is
developer and an existing target user not assigned to the caller, GET
/api/students/:id, PUT /api/students/:id and PUT /api/students/project/:id
all report success, never Forbidden. -/
theorem perIdRoutes_authorize_by_role_only (db : DB) (caller : User)
    (i j : Nat) (target : User)
    (ubody : UserUpdateBody) (pbody : ProjectUpdateBody)
    (hrole : caller.role = "developer")
    (hfind : findUserById db i = some target)
    (_hown : target.assignedDeveloper ≠ some caller.id) :
    (∃ d, getStudent db caller i = HttpResult.ok d) ∧
    (∃ db2 r, updateStudent db caller i ubody = (db2, HttpResult.ok r)) ∧
    (∀ p, findProjectById db j = some p →
       ∃ db2 q, updateProject db caller j pbody = (db2, HttpResult.ok q)) := by
  have hauth : authorizeDeveloper caller = true := authorizeDeveloper_of_role hrole
  refine ⟨?_, ?_, ?_⟩
  · rw [getStudent, if_pos hauth, hfind]
    exact ⟨_, rfl⟩
  · rw [updateStudent, if_pos hauth, hfind]
    exact ⟨_, _, rfl⟩
  · intro p hp
    rw [updateProject, if_pos hauth, hp]
    exact ⟨_, _, rfl⟩

/-- Witness for C2 at a concrete input: the sample developer (id 0) acts on
the sample student (assigned to developer 1, not 0) and on the sample
project, and none of the three endpoints answer Forbidden. -/
theorem perIdRoutes_authorize_by_role_only_witness :
    (∃ d, getStudent sampleDB sampleDev 2 = HttpResult.ok d) ∧
    (∃ db2 r, updateStudent sampleDB sampleDev 2
        { name := some "Sam R", username := none, password := none,
          assignedDeveloper := none, pdfPath := none, zipPath := none,
          videoPath := none, documentPath := none } = (db2, HttpResult.ok r)) ∧
    (∀ p, findProjectById sampleDB 0 = some p →
       ∃ db2 q, updateProject sampleDB sampleDev 0
           { title := none, description := none, status := some "Completed",
             frontend := none, backend := none, database := none,
             amount := none, submissionDate := none } = (db2, HttpResult.ok q)) :=
  perIdRoutes_authorize_by_role_only sampleDB sampleDev 2 0 sampleStudent
    { name := some "Sam R", username := none, password := none,
      assignedDeveloper := none, pdfPath := none, zipPath := none,
      videoPath := none, documentPath := none }
    { title := none, description := none, status := some "Completed",
      frontend := none, backend := none, database := none,
      amount := none, submissionDate := none }
    rfl rfl (by decide)

/-- Claim C4: project partial update is asymmetric between amount and the
text fields — for an existing project, a request with amount present (in
particular amount 0) always replaces the stored amount with its Number
coercion, while a falsy value for any of the seven text-like fields leaves
that field unchanged; and a missing project yields NotFound. -/
theorem projectUpdate_amount_truthiness_asymmetry (db : DB) (caller : User)
    (i : Nat) (body : ProjectUpdateBody) (p : Project)
    (hrole : caller.role = "developer") :
    (findProjectById db i = some p →
       ∃ q, updateProject db caller i body = (saveProject db q, HttpResult.ok q) ∧
         (∀ v, body.amount = some v → q.amount = jsNumber v) ∧
         (body.amount = some (JsValue.num 0) → q.amount = JsValue.num 0) ∧
         ((body.title = none ∨ body.title = some "") → q.title = p.title) ∧
         ((body.description = none ∨ body.description = some "") →
            q.description = p.description) ∧
         ((body.status = none ∨ body.status = some "") → q.status = p.status) ∧
         ((body.frontend = none ∨ body.frontend = some "") →
            q.frontend = p.frontend) ∧
         ((body.backend = none ∨ body.backend = some "") →
            q.backend = p.backend) ∧
         ((body.database = none ∨ body.database = some "") →
            q.database = p.database) ∧
         ((body.submissionDate = none ∨ body.submissionDate = some "") →
            q.submissionDate = p.submissionDate)) ∧
    (findProjectById db i = none →
       updateProject db caller i body = (db, HttpResult.notFound "Project not found")) := by
  have hauth : authorizeDeveloper caller = true := authorizeDeveloper_of_role hrole
  constructor
  · intro hfind
    rw [updateProject, if_pos hauth, hfind]
    refine ⟨_, rfl, ?_, ?_, ?_, ?_, ?_, ?_, ?_, ?_, ?_⟩
    · intro v hv; simp [hv]
    · intro hv; simp [hv, jsNumber]
    · intro hv; exact orKeep_falsy hv
    · intro hv; exact orKeep_falsy hv
    · intro hv; exact orKeep_falsy hv
    · intro hv; exact orKeep_falsy hv
    · intro hv; exact orKeep_falsy hv
    · intro hv; exact orKeep_falsy hv
    · intro hv; exact orKeep_falsy hv
  · intro hnone
    rw [updateProject, if_pos hauth, hnone]

/-- Witness for C4 at a concrete input: updating the sample project with
amount 0 and an empty title sets the stored amount to 0 and keeps the
title. -/
theorem projectUpdate_amount_truthiness_asymmetry_witness :
    ∃ q, updateProject sampleDB sampleDev 0
        { title := some "", description := none, status := none,
          frontend := none, backend := none, database := none,
          amount := some (JsValue.num 0), submissionDate := none }
      = (saveProject sampleDB q, HttpResult.ok q) ∧
      q.amount = JsValue.num 0 ∧ q.title = sampleProject.title := by
  obtain ⟨q, heq, _, hzero, htitle, _⟩ :=
    (projectUpdate_amount_truthiness_asymmetry sampleDB sampleDev 0
        { title := some "", description := none, status := none,
          frontend := none, backend := none, database := none,
          amount := some (JsValue.num 0), submissionDate := none }
        sampleProject rfl).1 rfl
  exact ⟨q, heq, hzero rfl, htitle (Or.inr rfl)⟩

def statsDev : User :=
  { id := 0, name := "Rhea", username := "rhea",
    password := hashPassword "hunter25", role := "developer",
    documentPath := "", pdfPath := "", zipPath := "", videoPath := "",
    assignedDeveloper := none }

def statsStudent : User :=
  { id := 1, name := "Ana", username := "ana",
    password := hashPassword "hunter26", role := "student",
    documentPath := "", pdfPath := "", zipPath := "", videoPath := "",
    assignedDeveloper := some 0 }

def statsProject (i : Nat) (a : JsValue) : Project :=
  { id := i, title := "P", description := "D", student := 1,
    submissionDate := "2025-02-02", frontend := "", backend := "",
    database := "", amount := a, status := "Pending", invoiceDetails := none }

/-- A store in which the developer's single student has four projects whose
amounts are 100, the string abc, null and 50. -/
def statsDB : DB :=
  { nextUserId := 2, nextProjectId := 4,
    users := [statsDev, statsStudent],
    projects := [statsProject 0 (JsValue.num 100),
                 statsProject 1 (JsValue.str "abc"),
                 statsProject 2 JsValue.null,
                 statsProject 3 (JsValue.num 50)] }

/-- Claim C5: globalStats returns totalStudents as the number of the
caller's students, totalProjects as the number of their projects, and
totalRevenue as the sum of each project's amount coerced to a number with
non-numeric or missing amounts contributing zero; on the concrete store
with amounts 100, abc, null, 50 the revenue is 150. -/
theorem globalStats_revenue_coercion (db : DB) (caller : User)
    (hrole : caller.role = "developer") :
    (∃ st, globalStats db caller = HttpResult.ok st ∧
       st.totalStudents
         = (db.users.filter
              (fun u => u.role == "student" && u.assignedDeveloper == some caller.id)).length ∧
       st.totalProjects
         = (db.projects.filter
              (fun p => ((db.users.filter
                    (fun u => u.role == "student" && u.assignedDeveloper == some caller.id)).map
                  (fun s => s.id)).contains p.student)).length ∧
       st.totalRevenue
         = ((db.projects.filter
              (fun p => ((db.users.filter
                    (fun u => u.role == "student" && u.assignedDeveloper == some caller.id)).map
                  (fun s => s.id)).contains p.student)).map
             (fun p => numOrZero p.amount)).sum) ∧
    (globalStats statsDB statsDev
       = HttpResult.ok { totalStudents := 1, totalProjects := 4, totalRevenue := 150 }) := by
  have hauth : authorizeDeveloper caller = true := authorizeDeveloper_of_role hrole
  constructor
  · rw [globalStats, if_pos hauth]
    refine ⟨_, rfl, by simp, rfl, ?_⟩
    rw [foldl_add_numOrZero]
    simp
  · decide

/-- Witness for C5 at a concrete input: projecting the general conjunct onto
the sample store recovers the three concrete totals. -/
theorem globalStats_revenue_coercion_witness :
    globalStats statsDB statsDev
      = HttpResult.ok { totalStudents := 1, totalProjects := 4, totalRevenue := 150 } :=
  (globalStats_revenue_coercion statsDB statsDev rfl).2

/-- Claim C3: listing is scoped to ownership at query time — the student
list returns exactly the stored users with role student whose
assignedDeveloper is the caller, and a student created by developer D is
assigned to D, appears in D's list and appears in no other developer's
list. -/
theorem listStudents_ownership_scoped (db : DB) (caller : User)
    (hrole : caller.role = "developer") :
    (∃ L, listStudents db caller = HttpResult.ok L ∧
       ∀ s, s ∈ L ↔ ∃ u ∈ db.users, u.role = "student" ∧
         u.assignedDeveloper = some caller.id ∧ s = u.toSafe) ∧
    (∀ body : CreateStudentBody, findUserByUsername db body.username = none →
       ∃ s : User, (createStudent db caller body).2 = HttpResult.created s ∧
         s.assignedDeveloper = some caller.id ∧
         (∃ L, listStudents (createStudent db caller body).1 caller = HttpResult.ok L ∧
            s.toSafe ∈ L) ∧
         (∀ other : User, other.role = "developer" → other.id ≠ caller.id →
            ∀ L, listStudents (createStudent db caller body).1 other = HttpResult.ok L →
              s.toSafe ∉ L)) := by
  have hauth : authorizeDeveloper caller = true := authorizeDeveloper_of_role hrole
  constructor
  · refine ⟨_, by rw [listStudents, if_pos hauth], ?_⟩
    intro s
    simp only [List.mem_map, List.mem_filter, Bool.and_eq_true, beq_iff_eq]
    constructor
    · rintro ⟨u, ⟨hu, hrole2, hdev⟩, hs⟩
      exact ⟨u, hu, hrole2, hdev, hs.symm⟩
    · rintro ⟨u, hu, hrole2, hdev, hs⟩
      exact ⟨u, ⟨hu, hrole2, hdev⟩, hs.symm⟩
  · intro body hfresh
    rw [createStudent, if_pos hauth, hfresh]
    refine ⟨_, rfl, rfl, ?_, ?_⟩
    · refine ⟨_, by rw [listStudents, if_pos hauth], ?_⟩
      simp only [List.mem_map]
      refine ⟨_, ?_, rfl⟩
      simp only [List.mem_filter, List.mem_append, List.mem_singleton]
      exact ⟨by simp, by simp⟩
    · intro other hother hne L hL hmem
      have hauth2 : authorizeDeveloper other = true := authorizeDeveloper_of_role hother
      rw [listStudents, if_pos hauth2] at hL
      have hL2 := hL
      injection hL2 with hL3
      rw [← hL3] at hmem
      simp only [List.mem_map, List.mem_filter, Bool.and_eq_true, beq_iff_eq] at hmem
      obtain ⟨u, ⟨_, _, hdev⟩, hsafe⟩ := hmem
      have : u.assignedDeveloper = some caller.id := by
        have := congrArg SafeUser.assignedDeveloper hsafe
        simpa [User.toSafe] using this
      rw [this] at hdev
      have hc : caller.id = other.id := by injection hdev
      exact hne hc.symm

/-- Witness for C3 at a concrete input: a student created by the sample
developer is assigned to that developer and shows up in their own list. -/
theorem listStudents_ownership_scoped_witness :
    ∃ s : User,
      (createStudent sampleDB sampleDev
          { name := "Noor", username := "noor", password := "pw123456" }).2
        = HttpResult.created s ∧
      s.assignedDeveloper = some sampleDev.id ∧
      (∃ L, listStudents
          (createStudent sampleDB sampleDev
            { name := "Noor", username := "noor", password := "pw123456" }).1 sampleDev
        = HttpResult.ok L ∧ s.toSafe ∈ L) := by
  obtain ⟨-, h2⟩ := listStudents_ownership_scoped sampleDB sampleDev rfl
  obtain ⟨s, hcreated, hassigned, hmem, -⟩ :=
    h2 { name := "Noor", username := "noor", password := "pw123456" } rfl
  exact ⟨s, hcreated, hassigned, hmem⟩

/-- Claim C7 (counterexample): the claimed invariant fails — starting from
an empty store, registering two developers and then pointing
PUT /api/students/:id at the second developer with an assignedDeveloper in
the body leaves a stored user whose role is developer and whose
assignedDeveloper is set, because the handler fetches any user by id without
checking its role. -/
theorem developer_gains_assignedDeveloper_counterexample :
    ∃ u ∈ (([AdminOp.registerDev
                { name := "Alice", username := "alice", password := some "password1" },
              AdminOp.registerDev
                { name := "Bob", username := "bob", password := some "password2" },
              AdminOp.putStudent 0 1
                { name := none, username := none, password := none,
                  assignedDeveloper := some 0, pdfPath := none, zipPath := none,
                  videoPath := none, documentPath := none }].foldl applyAdminOp
        { nextUserId := 0, nextProjectId := 0, users := [], projects := [] })).users,
      u.role = "developer" ∧ u.assignedDeveloper ≠ none := by
  decide

/-- The precondition under which one administration operation preserves the
developer invariant: a per-id user update must not supply a truthy
assignedDeveloper when its target is a developer. -/
def SafeAdminOp (db : DB) (op : AdminOp) : Prop :=
  match op with
  | .putStudent _ t body =>
      ∀ u, findUserById db t = some u → u.role = "developer" →
        body.assignedDeveloper = none
  | _ => True

/-- Claim C7, amended: developer registration and student creation never set
assignedDeveloper on a developer and preserve the invariant unconditionally;
PUT /api/students/:id preserves it only under the proviso that it is not
aimed at a developer with a truthy assignedDeveloper in the body — without
that proviso the invariant is violated (see the counterexample). -/
theorem developer_never_assigned_amended (db : DB) (op : AdminOp)
    (hinv : DevInvariant db) (hsafe : SafeAdminOp db op) :
    DevInvariant { nextUserId := 0, nextProjectId := 0, users := [], projects := [] } ∧
    DevInvariant (applyAdminOp db op) := by
  constructor
  · intro u hu; simp at hu
  · cases op with
    | registerDev body =>
      show DevInvariant (register db body).1
      cases hpw : body.password with
      | none => simpa [register, hpw] using hinv
      | some pw =>
        by_cases hlen : pw.length < 8
        · simpa [register, hpw, hlen] using hinv
        · cases hdup : findUserByUsername db body.username with
          | some u => simpa [register, hpw, hlen, hdup] using hinv
          | none =>
            intro u hu hrole
            simp only [register, hpw, hlen, hdup, if_neg, if_false,
              List.mem_append, List.mem_singleton] at hu
            rcases hu with h | h
            · exact hinv u h hrole
            · subst h; rfl
    | newStudent c body =>
      cases hc : findUserById db c with
      | none => simpa [applyAdminOp, hc] using hinv
      | some caller =>
        by_cases hauth : authorizeDeveloper caller = true
        · cases hdup : findUserByUsername db body.username with
          | some u => simpa [applyAdminOp, hc, createStudent, hauth, hdup] using hinv
          | none =>
            intro u hu hrole
            simp only [applyAdminOp, hc, createStudent, if_pos hauth, hdup,
              List.mem_append, List.mem_singleton] at hu
            rcases hu with h | h
            · exact hinv u h hrole
            · subst h
              simp at hrole
        · have hfalse : authorizeDeveloper caller = false := by simpa using hauth
          simpa [applyAdminOp, hc, createStudent, hfalse] using hinv
    | putStudent c t body =>
      cases hc : findUserById db c with
      | none => simpa [applyAdminOp, hc] using hinv
      | some caller =>
        by_cases hauth : authorizeDeveloper caller = true
        · cases ht : findUserById db t with
          | none => simpa [applyAdminOp, hc, updateStudent, hauth, ht] using hinv
          | some target =>
            intro u hu hrole
            have h1 : applyAdminOp db (AdminOp.putStudent c t body)
                = saveUser db (applyUserUpdate target body) := by
              simp only [applyAdminOp, hc]
              rw [updateStudent, if_pos hauth, ht]
            rw [h1] at hu
            rcases mem_saveUser_users hu with h | h
            · subst h
              rw [applyUserUpdate_assignedDeveloper]
              have htrole : target.role = "developer" := by
                rw [applyUserUpdate_role] at hrole; exact hrole
              rw [hsafe target ht htrole]
              have htmem : target ∈ db.users := List.mem_of_find?_eq_some ht
              simpa [orKeepRef] using hinv target htmem htrole
            · exact hinv u h hrole
        · have hfalse : authorizeDeveloper caller = false := by simpa using hauth
          simpa [applyAdminOp, hc, updateStudent, hfalse] using hinv

/-- Witness for C7 (amended) at a concrete input: registering one more
developer on the sample store keeps the invariant. -/
theorem developer_never_assigned_amended_witness :
    DevInvariant (applyAdminOp sampleDB
      (AdminOp.registerDev
        { name := "Zoe", username := "zoe", password := some "password9" })) :=
  (developer_never_assigned_amended sampleDB
      (AdminOp.registerDev
        { name := "Zoe", username := "zoe", password := some "password9" })
      (by intro u hu hrole
          simp only [sampleDB, List.mem_cons, List.not_mem_nil, or_false] at hu
          rcases hu with h | h | h <;> subst h <;> first
            | rfl
            | exact absurd hrole (by decide))
      trivial).2

/-- Claim C8 (counterexample): acceptance is not limited to the six listed
extensions — the filter's regular expression tests substring containment, so
the extension .pdfx, which is outside the accepted set, is accepted. -/
theorem fileFilter_accepts_unlisted_extension :
    fileFilter "report.pdfx" "application/octet-stream" = true ∧
    strLower (extnameOf "report.pdfx") = ".pdfx" ∧
    (".pdfx" : String) ∉ [".zip", ".pdf", ".mp4", ".mov", ".avi", ".mkv"] := by
  decide

/-- Claim C8, amended: upload acceptance is decided by the filename
extension only — the mime type never affects the decision — and a file is
accepted exactly when its lowercased extension contains one of zip, pdf,
mp4, mov, avi, mkv as a substring (not only when it equals one of them);
report.exe is rejected with the unsupported-file-type error, report.pdf is
accepted and sets pdfPath, clip.mp4 sets videoPath, archive.zip sets
zipPath. -/
theorem upload_extension_substring_decision (db : DB) (caller : User) (i : Nat)
    (user : User) (m m2 : String) (ts : Nat)
    (hrole : caller.role = "developer")
    (hfind : findUserById db i = some user) :
    (∀ name, fileFilter name m = filetypesTest (strLower (extnameOf name))) ∧
    (∀ name, fileFilter name m = fileFilter name m2) ∧
    (uploadDocument db caller i "report.exe" m ts
       = (db, HttpResult.unsupportedFileType
           "Error: Only ZIP, PDF, and Video files are allowed!")) ∧
    (uploadDocument db caller i "report.pdf" m ts
       = (saveUser db { user with pdfPath := storedPath ts "report.pdf" },
          HttpResult.ok { message := "File uploaded successfully",
                          path := storedPath ts "report.pdf" })) ∧
    (uploadDocument db caller i "clip.mp4" m ts
       = (saveUser db { user with videoPath := storedPath ts "clip.mp4" },
          HttpResult.ok { message := "File uploaded successfully",
                          path := storedPath ts "clip.mp4" })) ∧
    (uploadDocument db caller i "archive.zip" m ts
       = (saveUser db { user with zipPath := storedPath ts "archive.zip" },
          HttpResult.ok { message := "File uploaded successfully",
                          path := storedPath ts "archive.zip" })) := by
  have hauth : authorizeDeveloper caller = true := authorizeDeveloper_of_role hrole
  refine ⟨fun name => rfl, fun name => rfl, ?_, ?_, ?_, ?_⟩
  · have hff : fileFilter "report.exe" m = false := rfl
    rw [uploadDocument, if_pos hauth, if_neg (by simp [hff])]
  · have hff : fileFilter "report.pdf" m = true := rfl
    rw [uploadDocument, if_pos hauth, if_pos hff, hfind]
    rfl
  · have hff : fileFilter "clip.mp4" m = true := rfl
    rw [uploadDocument, if_pos hauth, if_pos hff, hfind]
    rfl
  · have hff : fileFilter "archive.zip" m = true := rfl
    rw [uploadDocument, if_pos hauth, if_pos hff, hfind]
    rfl

/-- Witness for C8 (amended) at a concrete input: uploading report.pdf for
the sample student stores its path in pdfPath. -/
theorem upload_extension_substring_decision_witness :
    uploadDocument sampleDB sampleDev 2 "report.pdf" "application/pdf" 99
      = (saveUser sampleDB
           { sampleStudent with pdfPath := storedPath 99 "report.pdf" },
         HttpResult.ok { message := "File uploaded successfully",
                         path := storedPath 99 "report.pdf" }) :=
  (upload_extension_substring_decision sampleDB sampleDev 2 sampleStudent
      "application/pdf" "x" 99 rfl rfl).2.2.2.1

/-- Claim C9: for an accepted upload whose lowercased extension is exactly
.pdf, .zip or one of the four video extensions, the handler writes only the
single corresponding path field of the found user and changes nothing else;
the documentPath fallback runs only for accepted files whose extension
merely contains one of the six substrings without equalling any of the six
exact extensions, and such filenames exist (.pdfx). -/
theorem upload_frame_and_fallback (db : DB) (caller : User) (i : Nat)
    (user : User) (name m : String) (ts : Nat)
    (hrole : caller.role = "developer")
    (hfind : findUserById db i = some user) :
    (strLower (extnameOf name) = ".pdf" →
       uploadDocument db caller i name m ts
         = (saveUser db { user with pdfPath := storedPath ts name },
            HttpResult.ok { message := "File uploaded successfully",
                            path := storedPath ts name })) ∧
    (strLower (extnameOf name) = ".zip" →
       uploadDocument db caller i name m ts
         = (saveUser db { user with zipPath := storedPath ts name },
            HttpResult.ok { message := "File uploaded successfully",
                            path := storedPath ts name })) ∧
    (strLower (extnameOf name) ∈ [".mp4", ".mov", ".avi", ".mkv"] →
       uploadDocument db caller i name m ts
         = (saveUser db { user with videoPath := storedPath ts name },
            HttpResult.ok { message := "File uploaded successfully",
                            path := storedPath ts name })) ∧
    (fileFilter name m = true →
       strLower (extnameOf name) ∉ [".pdf", ".zip", ".mp4", ".mov", ".avi", ".mkv"] →
       (uploadDocument db caller i name m ts
          = (saveUser db { user with documentPath := storedPath ts name },
             HttpResult.ok { message := "File uploaded successfully",
                             path := storedPath ts name }) ∧
        filetypesTest (strLower (extnameOf name)) = true)) ∧
    (fileFilter "a.pdfx" m = true ∧ strLower (extnameOf "a.pdfx") = ".pdfx" ∧
       (".pdfx" : String) ∉ [".pdf", ".zip", ".mp4", ".mov", ".avi", ".mkv"]) := by
  have hauth : authorizeDeveloper caller = true := authorizeDeveloper_of_role hrole
  refine ⟨?_, ?_, ?_, ?_, rfl, by decide, by decide⟩
  · intro hext
    have hacc : fileFilter name m = true := by
      show filetypesTest (strLower (extnameOf name)) = true
      rw [hext]; decide
    rw [uploadDocument, if_pos hauth, if_pos hacc, hfind, hext]
    rfl
  · intro hext
    have hacc : fileFilter name m = true := by
      show filetypesTest (strLower (extnameOf name)) = true
      rw [hext]; decide
    rw [uploadDocument, if_pos hauth, if_pos hacc, hfind, hext]
    rfl
  · intro hmem
    simp only [List.mem_cons, List.not_mem_nil, or_false] at hmem
    rcases hmem with h | h | h | h <;>
      (have hacc : fileFilter name m = true := by
        show filetypesTest (strLower (extnameOf name)) = true
        rw [h]; decide) <;>
      rw [uploadDocument, if_pos hauth, if_pos hacc, hfind, h] <;> rfl
  · intro hacc hnot
    simp only [List.mem_cons, List.not_mem_nil, or_false, not_or] at hnot
    obtain ⟨h1, h2, h3, h4, h5, h6⟩ := hnot
    refine ⟨?_, hacc⟩
    have e1 : (strLower (extnameOf name) == ".pdf") = false := by
      simpa using h1
    have e2 : (strLower (extnameOf name) == ".zip") = false := by
      simpa using h2
    have e3 : [".mp4", ".mov", ".avi", ".mkv"].contains (strLower (extnameOf name))
        = false := by
      simp [List.contains_cons, h3, h4, h5, h6]
    rw [uploadDocument, if_pos hauth, if_pos hacc, hfind]
    simp only [e1, e2, e3, Bool.false_eq_true, if_false]

/-- Witness for C9 at a concrete input: uploading notes.pdf for the sample
student rewrites exactly the pdfPath field. -/
theorem upload_frame_and_fallback_witness :
    uploadDocument sampleDB sampleDev 2 "notes.pdf" "text/plain" 7
      = (saveUser sampleDB
           { sampleStudent with pdfPath := storedPath 7 "notes.pdf" },
         HttpResult.ok { message := "File uploaded successfully",
                         path := storedPath 7 "notes.pdf" }) :=
  (upload_frame_and_fallback sampleDB sampleDev 2 sampleStudent "notes.pdf"
      "text/plain" 7 rfl rfl).1 (by decide)
